import Mathlib

/-!
Verification of the twitch_rss core: the error taxonomy, the TTL cache layer
around the three upstream calls, and the pure feed-building functions, shallowly
embedded from src/main.rs. String-valued identifier newtypes of the twitch_api2
crate (ClientId, ClientSecret, Nickname, UserId, Timestamp) are plain strings.
-/

namespace TwitchRss

/-- twitch_api2 ClientId is a string newtype. -/
abbrev ClientId := String

/-- twitch_api2 ClientSecret is a string newtype. -/
abbrev ClientSecret := String

/-- twitch_oauth2 AppAccessToken, treated as opaque by the program; modelled as its
string value. -/
abbrev AccessToken := String

/-- twitch_api2 Nickname (channel handle), a string newtype with derived (exact,
case-sensitive) equality and hashing. -/
abbrev Nickname := String

/-- twitch_api2 UserId, a string newtype. -/
abbrev UserId := String

/-- twitch_api2 Timestamp, an RFC 3339 string newtype. -/
abbrev Timestamp := String

/-- The error enum TwitchRssError from src/main.rs lines 17-23. -/
inductive TwitchRssError where
  | Token : String → TwitchRssError
  | UnknownChannel : String → TwitchRssError
  | Unauthorized : TwitchRssError
  | RequestError : String → TwitchRssError
deriving DecidableEq

/-- Shallow model of twitch_api2 ClientRequestError: the source (main.rs 189-196)
only distinguishes the HelixRequestGetError variant carrying an HTTP status from
every other variant, so the model keeps the status code and a message. -/
inductive ClientRequestError where
  | HelixRequestGetError : Nat → String → ClientRequestError
  | Other : String → ClientRequestError
deriving DecidableEq

/-- Shallow model of the third-party Display rendering used by the format call in
handle_helix_error; the claims never depend on the rendered text itself. -/
def renderClientRequestError : ClientRequestError → String
  | ClientRequestError.HelixRequestGetError status msg =>
      "HelixRequestGetError " ++ toString status ++ " " ++ msg
  | ClientRequestError.Other msg => msg

/-- handle_helix_error from src/main.rs lines 189-196: a helix GET error with HTTP
status 401 (UNAUTHORIZED) becomes Unauthorized; everything else becomes
RequestError with the rendered error text. -/
def handle_helix_error (err : ClientRequestError) : TwitchRssError :=
  match err with
  | ClientRequestError.HelixRequestGetError status msg =>
      if status = 401 then TwitchRssError.Unauthorized
      else TwitchRssError.RequestError
        (renderClientRequestError (ClientRequestError.HelixRequestGetError status msg))
  | e => TwitchRssError.RequestError (renderClientRequestError e)

/-- The fields of the twitch_api2 Video record that src/main.rs reads. -/
structure Video where
  id : String
  title : String
  url : String
  thumbnail_url : String
  description : String
  created_at : Timestamp
deriving DecidableEq

/-- The field of twitch_api2 ChannelInformation that get_user_id reads. -/
structure ChannelInformation where
  broadcaster_id : UserId
deriving DecidableEq

/-- Rust str::replace, as used in build_description (main.rs 167-170): every
non-overlapping occurrence of the pattern is replaced, scanning left to right.
Fuel-indexed structural recursion; the wrapper passes fuel = length of the input,
which suffices because each step consumes at least one character. -/
def replaceGo (pat repl : List Char) : Nat → List Char → List Char
  | _, [] => []
  | 0, s => s
  | fuel + 1, c :: rest =>
      if pat ≠ [] ∧ pat.isPrefixOf (c :: rest) then
        repl ++ replaceGo pat repl fuel ((c :: rest).drop pat.length)
      else
        c :: replaceGo pat repl fuel rest

/-- Rust s.replace(pat, to) on Lean strings. -/
def rustReplace (s pat repl : String) : String :=
  String.mk (replaceGo pat.data repl.data s.data.length s.data)

/-- The thumbnail placeholder substitution inside build_description
(main.rs 167-170): replace every occurrence of the width placeholder with "512",
then every occurrence of the height placeholder with "288". -/
def render_thumbnail (t : String) : String :=
  rustReplace (rustReplace t "%\x7bwidth\x7d" "512") "%\x7bheight\x7d" "288"

/-- build_description from src/main.rs lines 166-187: an anchor around an image
tag for the substituted thumbnail URL, then the description preceded by a break
only when it is non-empty, then unconditionally a break and the title. -/
def build_description (input : Video) : String :=
  let thumbnail_url := render_thumbnail input.thumbnail_url
  let description :=
    "<a href=\"" ++ input.url ++ "\"><img src=\"" ++ thumbnail_url ++ "\" /></a>"
  let description :=
    if input.description = "" then description
    else description ++ "<br />" ++ input.description
  description ++ "<br />" ++ input.title

/-- The rss crate Guid: the value set by GuidBuilder. -/
structure Guid where
  value : String
deriving DecidableEq

/-- The fields of the rss crate Item that video_to_rss_item sets; the builder
wraps each in an Option. -/
structure Item where
  guid : Option Guid
  pub_date : Option String
  title : Option String
  link : Option String
  description : Option String
deriving DecidableEq

/-- video_to_rss_item from src/main.rs lines 152-164. The timestamp conversion
(Timestamp.to_utc followed by DateTime.to_rfc2822) is third-party chrono/time
code, so the two conversion functions are parameters of the embedding. -/
def video_to_rss_item (DateTime : Type) (to_utc : Timestamp → DateTime)
    (to_rfc2822 : DateTime → String) (input : Video) : Item :=
  let guid : Guid := ⟨input.id⟩
  let published := to_rfc2822 (to_utc input.created_at)
  { guid := some guid
    pub_date := some published
    title := some input.title
    link := some input.url
    description := some (build_description input) }

/-- The anchor-wrapping-an-image part of the description in the words of the
spec (section 4.5): href is the record url, src is the substituted thumbnail. -/
def specAnchor (v : Video) : String :=
  "<a href=\"" ++ v.url ++ "\"><img src=\"" ++ render_thumbnail v.thumbnail_url
    ++ "\" /></a>"

/-- The description laid out exactly as the spec's words describe it: anchor,
then a break and the description only if the description is non-empty, then
unconditionally a break and the title. Used to compare build_description against
the spec's shape. -/
def specDescription (v : Video) : String :=
  specAnchor v ++ (if v.description = "" then "" else "<br />" ++ v.description)
    ++ ("<br />" ++ v.title)

/-- A cache entry as the spec's data model describes it: a value and its expiry
instant. Time is modelled as a natural number of seconds. -/
structure CacheEntry (V : Type) where
  value : V
  expiresAt : Nat
deriving DecidableEq

/-- The entry map of one cache instance. -/
def CacheMap (K V : Type) := K → Option (CacheEntry V)

/-- The outcome of one sequential getOrCompute call: the returned result, the
cache state afterwards, and whether the producer was invoked. -/
structure CacheResult (K V : Type) where
  result : Except TwitchRssError V
  state : CacheMap K V
  producerInvoked : Bool

/-- Modelled from the spec: the compute-and-store step of getOrCompute (section
4.1). The mechanism in the source is the third-party cached proc-macro (with
result = true), whose expansion is not part of src/: a producer success is stored
with expiry now + ttl, a producer failure stores nothing and is propagated. -/
def computeAndStore {K V : Type} [DecidableEq K] (ttl : Nat)
    (producer : K → Except TwitchRssError V) (st : CacheMap K V) (now : Nat)
    (k : K) : CacheResult K V :=
  match producer k with
  | Except.ok v =>
      ⟨Except.ok v, fun k2 => if k2 = k then some ⟨v, now + ttl⟩ else st k2, true⟩
  | Except.error e => ⟨Except.error e, st, true⟩

/-- Modelled from the spec: the sequential getOrCompute operation of the TTL
cache (section 4.1). The mechanism in the source is the third-party cached
proc-macro attribute (time = ttl, result = true), whose expansion is not part of
src/: a non-expired entry is served without calling the producer; otherwise the
producer runs and only successes are stored. -/
def getOrCompute {K V : Type} [DecidableEq K] (ttl : Nat)
    (producer : K → Except TwitchRssError V) (st : CacheMap K V) (now : Nat)
    (k : K) : CacheResult K V :=
  match st k with
  | some e =>
      if now < e.expiresAt then ⟨Except.ok e.value, st, false⟩
      else computeAndStore ttl producer st now k
  | none => computeAndStore ttl producer st now k

/-- The key misses the cache: there is no entry, or the entry has expired. -/
def misses {K V : Type} (st : CacheMap K V) (now : Nat) (k : K) : Prop :=
  match st k with
  | none => True
  | some e => e.expiresAt ≤ now

instance missesDecidable {K V : Type} (st : CacheMap K V) (now : Nat) (k : K) :
    Decidable (misses st now k) := by
  unfold misses
  cases st k with
  | none => exact isTrue trivial
  | some e => exact Nat.decLe e.expiresAt now

/-- The empty cache state. -/
def emptyCache {K V : Type} : CacheMap K V := fun _ => none

/-- get_token from src/main.rs lines 198-217: cached with time = 1200 and
result = true, keyed by the (ClientId, ClientSecret) pair. The credential
exchange with the authorization server is the external collaborator, a parameter
returning the token or the rendered upstream error; a failure is wrapped as
TwitchRssError.Token. -/
def get_token (exchange : ClientId × ClientSecret → Except String AccessToken)
    (st : CacheMap (ClientId × ClientSecret) AccessToken) (now : Nat)
    (client_id : ClientId) (client_secret : ClientSecret) :
    CacheResult (ClientId × ClientSecret) AccessToken :=
  getOrCompute 1200
    (fun kp =>
      match exchange kp with
      | Except.ok t => Except.ok t
      | Except.error e => Except.error (TwitchRssError.Token e))
    st now (client_id, client_secret)

/-- get_user_id from src/main.rs lines 219-239: cached with time = 600 and
result = true, keyed by the Nickname alone (the token argument is not part of
the key). get_channel_from_login is the external collaborator; its errors go
through handle_helix_error, and a successful lookup that finds no channel
becomes TwitchRssError.UnknownChannel carrying the handle. -/
def get_user_id
    (get_channel_from_login :
      AccessToken → Nickname → Except ClientRequestError (Option ChannelInformation))
    (token : AccessToken) (st : CacheMap Nickname UserId) (now : Nat)
    (user_name : Nickname) : CacheResult Nickname UserId :=
  getOrCompute 600
    (fun n =>
      match get_channel_from_login token n with
      | Except.error e => Except.error (handle_helix_error e)
      | Except.ok (some c) => Except.ok c.broadcaster_id
      | Except.ok none => Except.error (TwitchRssError.UnknownChannel n))
    st now user_name

/-- get_user_videos from src/main.rs lines 241-263: cached with time = 600 and
result = true, keyed by the UserId alone. req_get is the external collaborator
returning the data list of the paged response; its errors go through
handle_helix_error and the returned list is passed through unchanged. -/
def get_user_videos
    (req_get : AccessToken → UserId → Except ClientRequestError (List Video))
    (token : AccessToken) (st : CacheMap UserId (List Video)) (now : Nat)
    (user_id : UserId) : CacheResult UserId (List Video) :=
  getOrCompute 600
    (fun uid =>
      match req_get token uid with
      | Except.error e => Except.error (handle_helix_error e)
      | Except.ok videos => Except.ok videos)
    st now user_id

/-- The end-to-end example record of the spec (section 8): empty description. -/
def exampleVideo : Video :=
  { id := "v1"
    title := "T"
    url := "https://vod/v1"
    thumbnail_url := "https://th/%\x7bwidth\x7dx%\x7bheight\x7d.jpg"
    description := ""
    created_at := "2023-01-01T00:00:00Z" }

/-- A record whose thumbnail template is the concrete template of claim C7. -/
def widthHeightVideo : Video :=
  { id := "v"
    title := "T"
    url := "u"
    thumbnail_url := "https://x/%\x7bwidth\x7dx%\x7bheight\x7d.jpg"
    description := ""
    created_at := "2023-01-01T00:00:00Z" }

/-- A channel lookup collaborator that resolves every handle to user id 42. -/
def resolve42 :
    AccessToken → Nickname → Except ClientRequestError (Option ChannelInformation) :=
  fun _ _ => Except.ok (some ⟨"42"⟩)

/-- The resolver cache state after resolving "somechannel" at time 0. -/
def stateAfterFirstResolve : CacheMap Nickname UserId :=
  (get_user_id resolve42 "tok" emptyCache 0 "somechannel").state

/-- A token cache holding an entry for the pair ("id", "sec") expiring at 100. -/
def stTok : CacheMap (ClientId × ClientSecret) AccessToken :=
  fun kp => if kp = ("id", "sec") then some ⟨"tok", 100⟩ else none

/-- A resolver cache holding an entry for "somechannel" expiring at 600. -/
def stNick : CacheMap Nickname UserId :=
  fun n => if n = "somechannel" then some ⟨"42", 600⟩ else none

/-- A lister cache holding an entry for user id "42" expiring at 600. -/
def stVids : CacheMap UserId (List Video) :=
  fun uid => if uid = "42" then some ⟨[exampleVideo], 600⟩ else none

/-- A channel lookup collaborator that succeeds while finding no channel. -/
def resolveNone :
    AccessToken → Nickname → Except ClientRequestError (Option ChannelInformation) :=
  fun _ _ => Except.ok none

/-- A video listing collaborator that returns an empty list. -/
def listNothing : AccessToken → UserId → Except ClientRequestError (List Video) :=
  fun _ _ => Except.ok []

end TwitchRss

namespace TwitchRss

lemma replaceGo_nil (pat repl : List Char) (fuel : Nat) :
    replaceGo pat repl fuel [] = [] := by
  cases fuel <;> rfl

lemma replaceGo_cons_pos (pat repl : List Char) (fuel : Nat) (c : Char)
    (rest : List Char) (h : pat ≠ [] ∧ pat.isPrefixOf (c :: rest)) :
    replaceGo pat repl (fuel + 1) (c :: rest)
      = repl ++ replaceGo pat repl fuel ((c :: rest).drop pat.length) := by
  rw [replaceGo, if_pos h]

lemma replaceGo_cons_neg (pat repl : List Char) (fuel : Nat) (c : Char)
    (rest : List Char) (h : ¬ (pat ≠ [] ∧ pat.isPrefixOf (c :: rest))) :
    replaceGo pat repl (fuel + 1) (c :: rest)
      = c :: replaceGo pat repl fuel rest := by
  rw [replaceGo, if_neg h]

lemma prefix_of_replaceGo {pat repl : List Char} (hrepl : repl ≠ []) :
    ∀ (fuel : Nat) (s q : List Char), s.length ≤ fuel →
      (∀ c ∈ repl, c ∉ q) → q <+: replaceGo pat repl fuel s → q <+: s := by
  intro fuel
  induction fuel with
  | zero =>
      intro s q hs _ hp
      cases s with
      | nil =>
          rw [replaceGo_nil] at hp
          exact hp
      | cons c rest =>
          rw [List.length_cons] at hs
          omega
  | succ fuel ih =>
      intro s q hs hq hp
      cases s with
      | nil =>
          rw [replaceGo_nil] at hp
          exact hp
      | cons c rest =>
          rw [List.length_cons] at hs
          by_cases hm : pat ≠ [] ∧ pat.isPrefixOf (c :: rest)
          · rw [replaceGo_cons_pos pat repl fuel c rest hm] at hp
            cases q with
            | nil => exact ⟨c :: rest, rfl⟩
            | cons q0 qtl =>
                cases repl with
                | nil => exact absurd rfl hrepl
                | cons r0 rtl =>
                    rw [List.cons_append] at hp
                    have h0 := (List.cons_prefix_cons.mp hp).1
                    subst h0
                    exact absurd (List.mem_cons_self q0 qtl)
                      (hq q0 (List.mem_cons_self q0 rtl))
          · rw [replaceGo_cons_neg pat repl fuel c rest hm] at hp
            cases q with
            | nil => exact ⟨c :: rest, rfl⟩
            | cons q0 qtl =>
                obtain ⟨h0, h1⟩ := List.cons_prefix_cons.mp hp
                have hq2 : ∀ ch ∈ repl, ch ∉ qtl := fun ch hch hmem =>
                  hq ch hch (List.mem_cons_of_mem q0 hmem)
                have h2 := ih rest qtl (by omega) hq2 h1
                exact List.cons_prefix_cons.mpr ⟨h0, h2⟩

lemma not_infix_elim_append {q : List Char} (hq : q ≠ []) :
    ∀ (u R : List Char), (∀ c ∈ u, c ∉ q) → q <:+: u ++ R → q <:+: R := by
  intro u
  induction u with
  | nil =>
      intro R _ h
      simpa using h
  | cons t0 utl ih =>
      intro R hu h
      rw [List.cons_append] at h
      rcases List.infix_cons_iff.mp h with hpre | hinf
      · cases q with
        | nil => exact absurd rfl hq
        | cons q0 qtl =>
            have h0 := (List.cons_prefix_cons.mp hpre).1
            subst h0
            exact absurd (List.mem_cons_self q0 qtl)
              (hu q0 (List.mem_cons_self q0 utl))
      · exact ih R (fun c hc => hu c (List.mem_cons_of_mem t0 hc)) hinf

lemma not_infix_replaceGo_preserve {pat repl q : List Char} (hq : q ≠ [])
    (hrepl : repl ≠ []) (hdisj : ∀ c ∈ repl, c ∉ q) :
    ∀ (fuel : Nat) (s : List Char), s.length ≤ fuel → ¬ q <:+: s →
      ¬ q <:+: replaceGo pat repl fuel s := by
  intro fuel
  induction fuel with
  | zero =>
      intro s hs hns
      cases s with
      | nil =>
          rw [replaceGo_nil]
          exact hns
      | cons c rest =>
          rw [List.length_cons] at hs
          omega
  | succ fuel ih =>
      intro s hs hns
      cases s with
      | nil =>
          rw [replaceGo_nil]
          exact hns
      | cons c rest =>
          rw [List.length_cons] at hs
          by_cases hm : pat ≠ [] ∧ pat.isPrefixOf (c :: rest)
          · rw [replaceGo_cons_pos pat repl fuel c rest hm]
            intro hcon
            have h2 := not_infix_elim_append hq repl _ hdisj hcon
            have hplen : 0 < pat.length := List.length_pos.mpr hm.1
            have hdl : ((c :: rest).drop pat.length).length ≤ fuel := by
              rw [List.length_drop, List.length_cons]
              omega
            have hnd : ¬ q <:+: (c :: rest).drop pat.length := fun hin =>
              hns (hin.trans (List.drop_suffix pat.length (c :: rest)).isInfix)
            exact ih _ hdl hnd h2
          · rw [replaceGo_cons_neg pat repl fuel c rest hm]
            intro hcon
            rcases List.infix_cons_iff.mp hcon with hpre | hinf
            · have hps : q <+: c :: rest := by
                apply prefix_of_replaceGo hrepl (fuel + 1) (c :: rest) q
                  (by rw [List.length_cons]; omega) hdisj
                rw [replaceGo_cons_neg pat repl fuel c rest hm]
                exact hpre
              exact hns hps.isInfix
            · have hnr : ¬ q <:+: rest := fun hin => hns (List.infix_cons hin)
              exact ih rest (by omega) hnr hinf

lemma not_infix_replaceGo_self {pat repl : List Char} (hp : pat ≠ [])
    (hrepl : repl ≠ []) (hdisj : ∀ c ∈ repl, c ∉ pat) :
    ∀ (fuel : Nat) (s : List Char), s.length ≤ fuel →
      ¬ pat <:+: replaceGo pat repl fuel s := by
  intro fuel
  induction fuel with
  | zero =>
      intro s hs
      cases s with
      | nil =>
          rw [replaceGo_nil]
          intro h
          exact hp (List.infix_nil.mp h)
      | cons c rest =>
          rw [List.length_cons] at hs
          omega
  | succ fuel ih =>
      intro s hs
      cases s with
      | nil =>
          rw [replaceGo_nil]
          intro h
          exact hp (List.infix_nil.mp h)
      | cons c rest =>
          rw [List.length_cons] at hs
          by_cases hm : pat ≠ [] ∧ pat.isPrefixOf (c :: rest)
          · rw [replaceGo_cons_pos pat repl fuel c rest hm]
            intro hcon
            have h2 := not_infix_elim_append hp repl _ hdisj hcon
            have hplen : 0 < pat.length := List.length_pos.mpr hm.1
            have hdl : ((c :: rest).drop pat.length).length ≤ fuel := by
              rw [List.length_drop, List.length_cons]
              omega
            exact ih _ hdl h2
          · rw [replaceGo_cons_neg pat repl fuel c rest hm]
            intro hcon
            rcases List.infix_cons_iff.mp hcon with hpre | hinf
            · have hps : pat <+: c :: rest := by
                apply prefix_of_replaceGo hrepl (fuel + 1) (c :: rest) pat
                  (by rw [List.length_cons]; omega) hdisj
                rw [replaceGo_cons_neg pat repl fuel c rest hm]
                exact hpre
              exact hm ⟨hp, ( List.isPrefixOf_iff_prefix.mpr hps)⟩
            · exact ih rest (by omega) hinf

lemma not_infix_rustReplace_self (s : String) {pat repl : String}
    (hp : pat.data ≠ []) (hrepl : repl.data ≠ [])
    (hdisj : ∀ c ∈ repl.data, c ∉ pat.data) :
    ¬ pat.data <:+: (rustReplace s pat repl).data :=
  not_infix_replaceGo_self hp hrepl hdisj s.data.length s.data (Nat.le_refl _)

lemma not_infix_rustReplace_preserve (s : String) {pat repl q : String}
    (hq : q.data ≠ []) (hrepl : repl.data ≠ [])
    (hdisj : ∀ c ∈ repl.data, c ∉ q.data)
    (hns : ¬ q.data <:+: s.data) :
    ¬ q.data <:+: (rustReplace s pat repl).data :=
  not_infix_replaceGo_preserve hq hrepl hdisj s.data.length s.data
    (Nat.le_refl _) hns

end TwitchRss

namespace TwitchRss

lemma getOrCompute_eq_of_entry {K V : Type} [DecidableEq K] {ttl : Nat}
    {producer : K → Except TwitchRssError V} {st : CacheMap K V} {now : Nat}
    {k : K} {e : CacheEntry V} (hst : st k = some e) :
    getOrCompute ttl producer st now k
      = if now < e.expiresAt then ⟨Except.ok e.value, st, false⟩
        else computeAndStore ttl producer st now k := by
  unfold getOrCompute
  rw [hst]

lemma getOrCompute_eq_of_none {K V : Type} [DecidableEq K] {ttl : Nat}
    {producer : K → Except TwitchRssError V} {st : CacheMap K V} {now : Nat}
    {k : K} (hst : st k = none) :
    getOrCompute ttl producer st now k = computeAndStore ttl producer st now k := by
  unfold getOrCompute
  rw [hst]

lemma getOrCompute_hit {K V : Type} [DecidableEq K] {ttl : Nat}
    {producer : K → Except TwitchRssError V} {st : CacheMap K V} {now : Nat}
    {k : K} {e : CacheEntry V} (hst : st k = some e) (hfresh : now < e.expiresAt) :
    getOrCompute ttl producer st now k = ⟨Except.ok e.value, st, false⟩ := by
  rw [getOrCompute_eq_of_entry hst, if_pos hfresh]

lemma getOrCompute_miss {K V : Type} [DecidableEq K] {ttl : Nat}
    {producer : K → Except TwitchRssError V} {st : CacheMap K V} {now : Nat}
    {k : K} (hm : misses st now k) :
    getOrCompute ttl producer st now k = computeAndStore ttl producer st now k := by
  cases hst : st k with
  | none => rw [getOrCompute_eq_of_none hst]
  | some e =>
      have hle : e.expiresAt ≤ now := by
        unfold misses at hm
        rw [hst] at hm
        exact hm
      rw [getOrCompute_eq_of_entry hst, if_neg (Nat.not_lt.mpr hle)]

lemma computeAndStore_ok {K V : Type} [DecidableEq K] {ttl : Nat}
    {producer : K → Except TwitchRssError V} {st : CacheMap K V} {now : Nat}
    {k : K} {v : V} (hp : producer k = Except.ok v) :
    computeAndStore ttl producer st now k
      = ⟨Except.ok v, fun k2 => if k2 = k then some ⟨v, now + ttl⟩ else st k2,
          true⟩ := by
  unfold computeAndStore
  rw [hp]

lemma computeAndStore_error {K V : Type} [DecidableEq K] {ttl : Nat}
    {producer : K → Except TwitchRssError V} {st : CacheMap K V} {now : Nat}
    {k : K} {err : TwitchRssError} (hp : producer k = Except.error err) :
    computeAndStore ttl producer st now k = ⟨Except.error err, st, true⟩ := by
  unfold computeAndStore
  rw [hp]

lemma computeAndStore_invokes {K V : Type} [DecidableEq K] {ttl : Nat}
    {producer : K → Except TwitchRssError V} {st : CacheMap K V} {now : Nat}
    {k : K} : (computeAndStore ttl producer st now k).producerInvoked = true := by
  unfold computeAndStore
  cases producer k <;> rfl

lemma getOrCompute_store {K V : Type} [DecidableEq K] {ttl : Nat}
    {producer : K → Except TwitchRssError V} {st : CacheMap K V} {now : Nat}
    {k : K} {v : V} (hm : misses st now k) (hp : producer k = Except.ok v) :
    (getOrCompute ttl producer st now k).state k = some ⟨v, now + ttl⟩ := by
  rw [getOrCompute_miss hm, computeAndStore_ok hp]
  simp

lemma getOrCompute_fail {K V : Type} [DecidableEq K] {ttl : Nat}
    {producer : K → Except TwitchRssError V} {st : CacheMap K V} {now : Nat}
    {k : K} {err : TwitchRssError} (hm : misses st now k)
    (hp : producer k = Except.error err) :
    getOrCompute ttl producer st now k = ⟨Except.error err, st, true⟩ := by
  rw [getOrCompute_miss hm, computeAndStore_error hp]

lemma misses_mono {K V : Type} {st : CacheMap K V} {now now2 : Nat} {k : K}
    (h : misses st now k) (hle : now ≤ now2) : misses st now2 k := by
  unfold misses at h ⊢
  cases hst : st k with
  | none => trivial
  | some e =>
      rw [hst] at h
      exact Nat.le_trans h hle

end TwitchRss

namespace TwitchRss

/-- Claim C2: for every key and every cache instance, a lookup strictly before the
stored entry's expiry returns the cached value without invoking the producer; a
lookup at or after the expiry instant invokes the producer again; a value is never
served past expiry (any call that does not invoke the producer serves a
non-expired entry); and the instances store successes with ttl 1200 seconds
(token cache) and 600 seconds (channel resolver and video lister). -/
theorem cache_respects_ttl :
    (∀ (K V : Type) [DecidableEq K] (ttl : Nat)
        (producer : K → Except TwitchRssError V) (st : CacheMap K V) (now : Nat)
        (k : K) (e : CacheEntry V),
        st k = some e →
          (now < e.expiresAt →
            getOrCompute ttl producer st now k = ⟨Except.ok e.value, st, false⟩)
          ∧ (e.expiresAt ≤ now →
            (getOrCompute ttl producer st now k).producerInvoked = true))
    ∧ (∀ (K V : Type) [DecidableEq K] (ttl : Nat)
        (producer : K → Except TwitchRssError V) (st : CacheMap K V) (now : Nat)
        (k : K),
        (getOrCompute ttl producer st now k).producerInvoked = false →
          ∃ e : CacheEntry V, st k = some e ∧ now < e.expiresAt
            ∧ (getOrCompute ttl producer st now k).result = Except.ok e.value)
    ∧ (∀ (exchange : ClientId × ClientSecret → Except String AccessToken)
        (st : CacheMap (ClientId × ClientSecret) AccessToken) (now : Nat)
        (cid : ClientId) (cs : ClientSecret) (tok : AccessToken),
        misses st now (cid, cs) → exchange (cid, cs) = Except.ok tok →
          (get_token exchange st now cid cs).state (cid, cs)
            = some ⟨tok, now + 1200⟩)
    ∧ (∀ (lookup : AccessToken → Nickname
          → Except ClientRequestError (Option ChannelInformation))
        (token : AccessToken) (st : CacheMap Nickname UserId) (now : Nat)
        (n : Nickname) (c : ChannelInformation),
        misses st now n → lookup token n = Except.ok (some c) →
          (get_user_id lookup token st now n).state n
            = some ⟨c.broadcaster_id, now + 600⟩)
    ∧ (∀ (req : AccessToken → UserId → Except ClientRequestError (List Video))
        (token : AccessToken) (st : CacheMap UserId (List Video)) (now : Nat)
        (uid : UserId) (vs : List Video),
        misses st now uid → req token uid = Except.ok vs →
          (get_user_videos req token st now uid).state uid
            = some ⟨vs, now + 600⟩) := by
  refine ⟨?_, ?_, ?_, ?_, ?_⟩
  · intro K V _ ttl producer st now k e hst
    constructor
    · intro hfresh
      exact getOrCompute_hit hst hfresh
    · intro hle
      have hm : misses st now k := by
        unfold misses
        rw [hst]
        exact hle
      rw [getOrCompute_miss hm]
      exact computeAndStore_invokes
  · intro K V _ ttl producer st now k hfalse
    cases hst : st k with
    | none =>
        rw [getOrCompute_eq_of_none hst, computeAndStore_invokes] at hfalse
        exact absurd hfalse (by decide)
    | some e =>
        by_cases hfresh : now < e.expiresAt
        · refine ⟨e, rfl, hfresh, ?_⟩
          rw [getOrCompute_hit hst hfresh]
        · have hm : misses st now k := by
            unfold misses
            rw [hst]
            exact Nat.not_lt.mp hfresh
          rw [getOrCompute_miss hm, computeAndStore_invokes] at hfalse
          exact absurd hfalse (by decide)
  · intro exchange st now cid cs tok hm hx
    unfold get_token
    exact getOrCompute_store hm (by simp [hx])
  · intro lookup token st now n c hm hx
    unfold get_user_id
    exact getOrCompute_store hm (by simp [hx])
  · intro req token st now uid vs hm hx
    unfold get_user_videos
    exact getOrCompute_store hm (by simp [hx])

/-- Witness for claim C2 at concrete inputs: a hit strictly before expiry serves
the cached token without invoking the producer; a call at the expiry instant
invokes it; a successful token exchange at time 100 is stored with expiry
100 + 1200 = 1300. -/
theorem cache_respects_ttl_witness :
    getOrCompute 1200
        (fun _ : ClientId × ClientSecret =>
          (Except.ok "fresh" : Except TwitchRssError AccessToken))
        stTok 50 ("id", "sec")
      = ⟨Except.ok "tok", stTok, false⟩
    ∧ (getOrCompute 1200
        (fun _ : ClientId × ClientSecret =>
          (Except.ok "fresh" : Except TwitchRssError AccessToken))
        stTok 100 ("id", "sec")).producerInvoked = true
    ∧ (get_token (fun _ => Except.ok "fresh") stTok 100 "id" "sec").state
        ("id", "sec") = some ⟨"fresh", 1300⟩ := by
  refine ⟨?_, ?_, ?_⟩
  · exact (cache_respects_ttl.1 (ClientId × ClientSecret) AccessToken 1200 _
      stTok 50 ("id", "sec") ⟨"tok", 100⟩ (by decide)).1 (by decide)
  · exact (cache_respects_ttl.1 (ClientId × ClientSecret) AccessToken 1200 _
      stTok 100 ("id", "sec") ⟨"tok", 100⟩ (by decide)).2 (by decide)
  · exact cache_respects_ttl.2.2.1 (fun _ => Except.ok "fresh") stTok 100
      "id" "sec" "fresh" (by decide) rfl

/-- Claim C3: when the producer fails while the key misses the cache, the error is
propagated unchanged, the cache state is unchanged (nothing stored), the producer
was invoked, and any immediately following call at the same or a later instant
invokes the producer again: no negative caching and no backoff. -/
theorem producer_failure_not_cached :
    ∀ (K V : Type) [DecidableEq K] (ttl : Nat)
      (producer : K → Except TwitchRssError V) (st : CacheMap K V) (now : Nat)
      (k : K) (err : TwitchRssError),
      misses st now k → producer k = Except.error err →
        getOrCompute ttl producer st now k = ⟨Except.error err, st, true⟩
        ∧ ∀ now2 : Nat, now ≤ now2 →
            (getOrCompute ttl producer st now2 k).producerInvoked = true := by
  intro K V _ ttl producer st now k err hm hp
  constructor
  · rw [getOrCompute_miss hm, computeAndStore_error hp]
  · intro now2 hle
    rw [getOrCompute_miss (misses_mono hm hle)]
    exact computeAndStore_invokes

/-- Witness for claim C3 at concrete inputs: a failing producer on the empty
cache propagates its error with the state unchanged, and the immediately
following call (here at time 5) invokes the producer again. -/
theorem producer_failure_not_cached_witness :
    getOrCompute 600
        (fun _ : Nickname =>
          (Except.error (TwitchRssError.RequestError "boom")
            : Except TwitchRssError UserId))
        emptyCache 0 "k"
      = ⟨Except.error (TwitchRssError.RequestError "boom"), emptyCache, true⟩
    ∧ (getOrCompute 600
        (fun _ : Nickname =>
          (Except.error (TwitchRssError.RequestError "boom")
            : Except TwitchRssError UserId))
        emptyCache 5 "k").producerInvoked = true := by
  refine ⟨?_, ?_⟩
  · exact (producer_failure_not_cached Nickname UserId 600 _ emptyCache 0 "k" _
      (by decide) rfl).1
  · exact (producer_failure_not_cached Nickname UserId 600 _ emptyCache 0 "k" _
      (by decide) rfl).2 5 (by decide)

/-- Claim C4: when the platform lookup succeeds but returns no user while the
handle misses the cache, get_user_id returns the distinguished UnknownChannel
error carrying the handle, stores nothing (the state is unchanged), and any
subsequent call at the same or a later instant queries upstream again. -/
theorem unknown_channel_not_cached :
    ∀ (lookup : AccessToken → Nickname
        → Except ClientRequestError (Option ChannelInformation))
      (token : AccessToken) (st : CacheMap Nickname UserId) (now : Nat)
      (name : Nickname),
      misses st now name → lookup token name = Except.ok none →
        get_user_id lookup token st now name
          = ⟨Except.error (TwitchRssError.UnknownChannel name), st, true⟩
        ∧ ∀ now2 : Nat, now ≤ now2 →
            (get_user_id lookup token st now2 name).producerInvoked = true := by
  intro lookup token st now name hm hl
  constructor
  · unfold get_user_id
    exact getOrCompute_fail hm (by simp [hl])
  · intro now2 hle
    unfold get_user_id
    rw [getOrCompute_miss (misses_mono hm hle)]
    exact computeAndStore_invokes

/-- Witness for claim C4 at concrete inputs: resolving the unknown handle
doesnotexist123 on the empty cache yields UnknownChannel with the state
unchanged, and a retry at time 7 queries upstream again. -/
theorem unknown_channel_not_cached_witness :
    get_user_id resolveNone "tok" emptyCache 0 "doesnotexist123"
      = ⟨Except.error (TwitchRssError.UnknownChannel "doesnotexist123"),
          emptyCache, true⟩
    ∧ (get_user_id resolveNone "tok" emptyCache 7
        "doesnotexist123").producerInvoked = true := by
  refine ⟨?_, ?_⟩
  · exact (unknown_channel_not_cached resolveNone "tok" emptyCache 0
      "doesnotexist123" (by decide) rfl).1
  · exact (unknown_channel_not_cached resolveNone "tok" emptyCache 0
      "doesnotexist123" (by decide) rfl).2 7 (by decide)

/-- Claim C5 counterexample: the resolver's cache keys are compared exactly, not
case-insensitively. After "somechannel" is resolved and cached at time 0, a call
at time 1 (well within the 600 second TTL) with the differently-cased handle
"SomeChannel" does invoke the upstream lookup, refuting the claim that it would
return the cached UserId without invoking it. -/
theorem handle_case_counterexample :
    ¬ ((get_user_id resolve42 "tok" stateAfterFirstResolve 1
        "SomeChannel").producerInvoked = false) := by
  decide

/-- Claim C5 as amended: the Channel Resolver treats handles case-sensitively as
cache keys. A call with the exact cached handle within the TTL window returns the
cached UserId without invoking the upstream lookup, while a handle that differs
(for example only in letter case) is a distinct key and, having no entry of its
own, invokes the upstream lookup. -/
theorem handle_cache_key_case_sensitive :
    ∀ (lookup : AccessToken → Nickname
        → Except ClientRequestError (Option ChannelInformation))
      (token : AccessToken) (st : CacheMap Nickname UserId) (now : Nat)
      (n1 n2 : Nickname) (e : CacheEntry UserId),
      st n1 = some e → now < e.expiresAt →
        get_user_id lookup token st now n1 = ⟨Except.ok e.value, st, false⟩
        ∧ (n2 ≠ n1 → st n2 = none →
            (get_user_id lookup token st now n2).producerInvoked = true) := by
  intro lookup token st now n1 n2 e hst hfresh
  constructor
  · unfold get_user_id
    exact getOrCompute_hit hst hfresh
  · intro _ hnone
    unfold get_user_id
    rw [getOrCompute_eq_of_none hnone]
    exact computeAndStore_invokes

/-- Witness for the amended claim C5 at concrete inputs: with "somechannel"
cached, the identical handle hits the cache without an upstream call and the
differently-cased "SomeChannel" invokes the upstream lookup. -/
theorem handle_cache_key_case_sensitive_witness :
    get_user_id resolve42 "tok" stNick 1 "somechannel"
      = ⟨Except.ok "42", stNick, false⟩
    ∧ (get_user_id resolve42 "tok" stNick 1 "SomeChannel").producerInvoked
        = true := by
  have h := handle_cache_key_case_sensitive resolve42 "tok" stNick 1
    "somechannel" "SomeChannel" ⟨"42", 600⟩ (by decide) (by decide)
  exact ⟨h.1, h.2 (by decide) (by decide)⟩

/-- Claim C9: the resolver and lister cache lookups ignore the access-token
argument. With a non-expired cached entry, get_user_id returns the same cached
UserId for any two tokens with no upstream call, and get_user_videos likewise
returns the cached video list whatever token is passed. -/
theorem cache_ignores_token :
    (∀ (lookup : AccessToken → Nickname
          → Except ClientRequestError (Option ChannelInformation))
        (t1 t2 : AccessToken) (st : CacheMap Nickname UserId) (now : Nat)
        (n : Nickname) (e : CacheEntry UserId),
        st n = some e → now < e.expiresAt →
          get_user_id lookup t1 st now n = ⟨Except.ok e.value, st, false⟩
          ∧ get_user_id lookup t2 st now n = ⟨Except.ok e.value, st, false⟩)
    ∧ (∀ (req : AccessToken → UserId → Except ClientRequestError (List Video))
        (t1 t2 : AccessToken) (st : CacheMap UserId (List Video)) (now : Nat)
        (uid : UserId) (e : CacheEntry (List Video)),
        st uid = some e → now < e.expiresAt →
          get_user_videos req t1 st now uid = ⟨Except.ok e.value, st, false⟩
          ∧ get_user_videos req t2 st now uid
              = ⟨Except.ok e.value, st, false⟩) := by
  constructor
  · intro lookup t1 t2 st now n e hst hfresh
    constructor
    · unfold get_user_id
      exact getOrCompute_hit hst hfresh
    · unfold get_user_id
      exact getOrCompute_hit hst hfresh
  · intro req t1 t2 st now uid e hst hfresh
    constructor
    · unfold get_user_videos
      exact getOrCompute_hit hst hfresh
    · unfold get_user_videos
      exact getOrCompute_hit hst hfresh

/-- Witness for claim C9 at concrete inputs: two different tokens read the same
cached resolver entry and the same cached video list, with no upstream call. -/
theorem cache_ignores_token_witness :
    get_user_id resolve42 "tokenA" stNick 1 "somechannel"
      = ⟨Except.ok "42", stNick, false⟩
    ∧ get_user_id resolve42 "tokenB" stNick 1 "somechannel"
        = ⟨Except.ok "42", stNick, false⟩
    ∧ get_user_videos listNothing "tokenA" stVids 1 "42"
        = ⟨Except.ok [exampleVideo], stVids, false⟩
    ∧ get_user_videos listNothing "tokenB" stVids 1 "42"
        = ⟨Except.ok [exampleVideo], stVids, false⟩ := by
  have h1 := cache_ignores_token.1 resolve42 "tokenA" "tokenB" stNick 1
    "somechannel" ⟨"42", 600⟩ (by decide) (by decide)
  have h2 := cache_ignores_token.2 listNothing "tokenA" "tokenB" stVids 1
    "42" ⟨[exampleVideo], 600⟩ (by decide) (by decide)
  exact ⟨h1.1, h1.2, h2.1, h2.2⟩

end TwitchRss

namespace TwitchRss

set_option maxRecDepth 8192 in
/-- Claim C6: for every VideoRecord, the built description is exactly the anchor
wrapping the image tag of the substituted thumbnail URL, then, only when the
description is non-empty, a line break and the description, then unconditionally
a line break and the title; with an empty description the result is exactly the
anchor followed by one line break and the title, the break-then-title pair is a
suffix of every built description, and at the spec's empty-description example
the result contains no two consecutive line breaks. -/
theorem description_structure :
    (∀ v : Video, build_description v = specDescription v)
    ∧ (∀ v : Video, v.description = "" →
        build_description v = specAnchor v ++ ("<br />" ++ v.title))
    ∧ (∀ v : Video, ("<br />" ++ v.title).data <:+ (build_description v).data)
    ∧ build_description exampleVideo
        = "<a href=\"https://vod/v1\"><img src=\"https://th/512x288.jpg\" /></a><br />T"
    ∧ ¬ ("<br /><br />" : String).data <:+: (build_description exampleVideo).data := by
  refine ⟨?_, ?_, ?_, by decide, by decide⟩
  · intro v
    unfold build_description specDescription specAnchor
    by_cases h : v.description = ""
    · apply String.ext
      simp [h, String.data_append, List.append_assoc]
    · apply String.ext
      simp [h, String.data_append, List.append_assoc]
  · intro v h
    unfold build_description specAnchor
    apply String.ext
    simp [h, String.data_append, List.append_assoc]
  · intro v
    simp only [build_description]
    rw [String.append_assoc, String.data_append]
    exact List.suffix_append _ _

/-- Witness for claim C6: the empty-description branch evaluated at the spec's
end-to-end example record. -/
theorem description_structure_witness :
    build_description exampleVideo = specAnchor exampleVideo ++ ("<br />" ++ "T") :=
  description_structure.2.1 exampleVideo rfl

/-- Claim C7: the Feed Builder substitutes the width placeholder with "512" and
the height placeholder with "288"; the template "https://x/" followed by the two
placeholders separated by "x" and ".jpg" renders as "https://x/512x288.jpg",
both directly and inside a built description. -/
theorem thumbnail_placeholder_values :
    render_thumbnail "https://x/%\x7bwidth\x7dx%\x7bheight\x7d.jpg"
      = "https://x/512x288.jpg"
    ∧ build_description widthHeightVideo
        = "<a href=\"u\"><img src=\"https://x/512x288.jpg\" /></a><br />T" := by
  exact ⟨by decide, by decide⟩

/-- Claim C8: for every VideoRecord and every pair of timestamp conversion
functions, the built item's guid is the video id's string form, its publish date
is the record's creation timestamp converted to UTC and formatted per RFC 2822
(the composition of the two third-party conversions), its link is the record's
url unmodified, and rebuilding the same record yields the identical item. -/
theorem rss_item_fields :
    ∀ (DateTime : Type) (to_utc : Timestamp → DateTime)
      (to_rfc2822 : DateTime → String) (v : Video),
      (video_to_rss_item DateTime to_utc to_rfc2822 v).guid = some ⟨v.id⟩
      ∧ (video_to_rss_item DateTime to_utc to_rfc2822 v).pub_date
          = some (to_rfc2822 (to_utc v.created_at))
      ∧ (video_to_rss_item DateTime to_utc to_rfc2822 v).link = some v.url
      ∧ video_to_rss_item DateTime to_utc to_rfc2822 v
          = video_to_rss_item DateTime to_utc to_rfc2822 v := by
  intro DateTime to_utc to_rfc2822 v
  exact ⟨rfl, rfl, rfl, rfl⟩

/-- Claim C10: for every thumbnail URL template, every occurrence of the width
and height placeholders is substituted: no occurrence of either placeholder
remains in the rendered thumbnail URL, and a template containing each
placeholder twice renders with all four occurrences replaced. -/
theorem substitution_replaces_every_occurrence :
    (∀ t : String,
        ¬ ("%\x7bwidth\x7d" : String).data <:+: (render_thumbnail t).data
        ∧ ¬ ("%\x7bheight\x7d" : String).data <:+: (render_thumbnail t).data)
    ∧ render_thumbnail "%\x7bwidth\x7d%\x7bwidth\x7dx%\x7bheight\x7d%\x7bheight\x7d"
        = "512512x288288" := by
  constructor
  · intro t
    constructor
    · unfold render_thumbnail
      apply not_infix_rustReplace_preserve _ (by decide) (by decide) (by decide)
      apply not_infix_rustReplace_self _ (by decide) (by decide) (by decide)
    · unfold render_thumbnail
      apply not_infix_rustReplace_self _ (by decide) (by decide) (by decide)
  · decide

end TwitchRss
